import Mathlib

/-
Verification development for the zk-mdl-kit verification-and-issuance
pipeline.  The JavaScript sources are shallowly embedded: JS objects become
association lists with insertion-order update semantics, JS Map stores become
keyed reference tables (so that object aliasing through several keys is
modelled faithfully), timestamps become integers (epoch milliseconds or
seconds as in the source), and the external crypto and codec collaborators
(jose signing, sha-256, base64url plus JSON round-trips) become explicit
function parameters with their contracts stated as hypotheses.
-/

set_option linter.unusedVariables false

namespace ZkMdlKit

/-- Model of a JSON/JavaScript value as it appears in the request and
response bodies the pipeline handles: null, booleans, integer numbers,
strings and arrays. -/
inductive JsVal where
  | jnull : JsVal
  | jbool : Bool → JsVal
  | jnum : Int → JsVal
  | jstr : String → JsVal
  | jarr : List JsVal → JsVal
deriving Repr

/-- JavaScript truthiness of a value: null, false, 0 and the empty string
are falsy, everything else (including any array) is truthy. -/
def jsTruthy : JsVal → Bool
  | .jnull => false
  | .jbool b => b
  | .jnum n => n != 0
  | .jstr s => s != ""
  | .jarr _ => true

/-- Truthiness of a possibly absent value (a missing JS property reads as
undefined, which is falsy). -/
def jsOptTruthy : Option JsVal → Bool
  | some v => jsTruthy v
  | none => false

/-- Test whether a possibly absent value is exactly the boolean false, the
comparison the source writes as a strict inequality against false. -/
def isExplicitFalse : Option JsVal → Bool
  | some (.jbool false) => true
  | _ => false

/-- JavaScript property read / Map.get: the value at the first (and, for
real JS objects and Maps, only) entry with the given key. -/
def jsMapGet {κ α : Type} [DecidableEq κ] : List (κ × α) → κ → Option α
  | [], _ => none
  | p :: rest, k => if p.1 = k then some p.2 else jsMapGet rest k

/-- JavaScript property assignment / Map.set: replaces the value in place
when the key exists, appends a new entry otherwise. -/
def jsMapSet {κ α : Type} [DecidableEq κ] : List (κ × α) → κ → α → List (κ × α)
  | [], k, v => [(k, v)]
  | p :: rest, k, v => if p.1 = k then (k, v) :: rest else p :: jsMapSet rest k v

/-- JavaScript Map.delete: removes every entry carrying the given key
(real Maps have at most one). -/
def jsMapDelete {κ α : Type} [DecidableEq κ] (l : List (κ × α)) (k : κ) : List (κ × α) :=
  l.filter (fun p => p.1 ≠ k)

/-- JavaScript string-or-default: the left operand unless it is absent or
empty (falsy), in which case the default on the right. -/
def jsOrString : Option String → String → String
  | some s, d => if s = "" then d else s
  | none, d => d

section SessionTranscriptModel

/-- Embedding of validateSessionTranscript from
src/verifier/sessionTranscript.js: false for a non-array, false when the
array does not have exactly 3 elements, false when the third element
(the handover) is not itself an array, and true otherwise.  The source only
logs a warning when the first two elements are not null, and never inspects
the handover tag. -/
def validateSessionTranscript : JsVal → Bool
  | .jarr [_, _, handover] =>
    match handover with
    | .jarr _ => true
    | _ => false
  | _ => false

end SessionTranscriptModel

section PresentationVerifierModel

/-- Result shape returned by the Longfellow remote verifier (or substituted
for it), as consumed by src/unnamed/part_002: a validity bit, an optional
predicates object, an optional issuer label, an optional error message, an
optional issuance timestamp, and the mock marker (false models the property
being absent). -/
structure LongfellowResult where
  valid : Bool
  predicates : Option (List (String × JsVal)) := none
  issuer : Option String := none
  error : Option String := none
  issuedAt : Option String := none
  mock : Bool := false
deriving Repr

/-- Lookup of a key inside the optional predicates object of a remote
result. -/
def remotePred (r : LongfellowResult) (k : String) : Option JsVal :=
  r.predicates.bind (fun entries => jsMapGet entries k)

/-- Loop body of extractPredicates over the remote predicates object:
assigns the entry into the output object only when its value is a
boolean. -/
def forwardBool (acc : List (String × JsVal)) (p : String × JsVal) : List (String × JsVal) :=
  match p.2 with
  | .jbool b => jsMapSet acc p.1 (.jbool b)
  | _ => acc

/-- First stage of extractPredicates: only the boolean-typed entries of the
remote predicates object are forwarded (source comment: not raw PII). -/
def forwardedBooleans (r : LongfellowResult) : List (String × JsVal) :=
  match r.predicates with
  | some entries => entries.foldl forwardBool []
  | none => []

/-- Second stage: the derived over21 flag, set to true when the namespaced
age_over_21 predicate is truthy. -/
def withOver21 (r : LongfellowResult) : List (String × JsVal) :=
  if jsOptTruthy (remotePred r "org.iso.18013.5.1.age_over_21") then
    jsMapSet (forwardedBooleans r) "over21" (.jbool true)
  else forwardedBooleans r

/-- Third stage: the derived over18 flag, set to true when the namespaced
age_over_18 predicate is truthy. -/
def withOver18 (r : LongfellowResult) : List (String × JsVal) :=
  if jsOptTruthy (remotePred r "org.iso.18013.5.1.age_over_18") then
    jsMapSet (withOver21 r) "over18" (.jbool true)
  else withOver21 r

/-- Fourth stage: the issuerJurisdiction label, copied from the truthy
remote issuer field. -/
def withIssuer (r : LongfellowResult) : List (String × JsVal) :=
  match r.issuer with
  | some s => if s = "" then withOver18 r else jsMapSet (withOver18 r) "issuerJurisdiction" (.jstr s)
  | none => withOver18 r

/-- Embedding of extractPredicates (src/unnamed/part_002, lines 143-174):
forwards only the boolean-typed entries of the remote predicates object,
then adds the derived over21 / over18 flags when the namespaced age
predicates are truthy, the issuerJurisdiction label when the remote issuer
is truthy, and finally notExpired, true unless the namespaced not_expired
predicate is exactly the boolean false. -/
def extractPredicates (r : LongfellowResult) : List (String × JsVal) :=
  jsMapSet (withIssuer r) "notExpired"
    (.jbool (!isExplicitFalse (remotePred r "org.iso.18013.5.1.not_expired")))

end PresentationVerifierModel

section MapLemmas

variable {κ α : Type} [DecidableEq κ]

@[simp] theorem jsMapGet_nil (k : κ) : jsMapGet ([] : List (κ × α)) k = none := rfl

@[simp] theorem jsMapGet_cons (p : κ × α) (l : List (κ × α)) (k : κ) :
    jsMapGet (p :: l) k = if p.1 = k then some p.2 else jsMapGet l k := rfl

@[simp] theorem jsMapSet_nil (k : κ) (v : α) : jsMapSet ([] : List (κ × α)) k v = [(k, v)] := rfl

@[simp] theorem jsMapSet_cons (p : κ × α) (l : List (κ × α)) (k : κ) (v : α) :
    jsMapSet (p :: l) k v = if p.1 = k then (k, v) :: l else p :: jsMapSet l k v := rfl

theorem jsMapDelete_nil (k : κ) : jsMapDelete ([] : List (κ × α)) k = [] := rfl

theorem jsMapDelete_cons (p : κ × α) (l : List (κ × α)) (k : κ) :
    jsMapDelete (p :: l) k = if p.1 = k then jsMapDelete l k else p :: jsMapDelete l k := by
  by_cases h : p.1 = k <;> simp [jsMapDelete, List.filter_cons, h]

theorem jsMapGet_jsMapSet_self (l : List (κ × α)) (k : κ) (v : α) :
    jsMapGet (jsMapSet l k v) k = some v := by
  induction l with
  | nil => simp
  | cons p rest ih =>
    by_cases h : p.1 = k
    · simp [h]
    · simp [h, ih]

theorem jsMapGet_jsMapSet_ne (l : List (κ × α)) (k k' : κ) (v : α) (h : k' ≠ k) :
    jsMapGet (jsMapSet l k v) k' = jsMapGet l k' := by
  have hk : ¬ (k = k') := fun hh => h hh.symm
  induction l with
  | nil => simp [hk]
  | cons p rest ih =>
    by_cases hp : p.1 = k
    · have hpk' : ¬ (p.1 = k') := by rw [hp]; exact hk
      simp [hp, hk, hpk']
    · by_cases hp' : p.1 = k'
      · simp [hp, hp', h, hk]
      · simp [hp, hp', ih]

theorem mem_jsMapSet {l : List (κ × α)} {k : κ} {v : α} {p : κ × α}
    (h : p ∈ jsMapSet l k v) : p ∈ l ∨ p = (k, v) := by
  induction l with
  | nil =>
    simp at h
    simp [h]
  | cons q rest ih =>
    by_cases hq : q.1 = k
    · simp [hq] at h
      rcases h with h | h
      · right; simp [h]
      · left; simp [h]
    · simp [hq] at h
      rcases h with h | h
      · left; simp [h]
      · rcases ih h with h' | h'
        · left; simp [h']
        · right; exact h'

theorem jsMapGet_jsMapDelete_self (l : List (κ × α)) (k : κ) :
    jsMapGet (jsMapDelete l k) k = none := by
  induction l with
  | nil => simp [jsMapDelete_nil]
  | cons p rest ih =>
    rw [jsMapDelete_cons]
    by_cases hp : p.1 = k
    · simp [hp, ih]
    · simp [hp, ih]

theorem jsMapGet_jsMapDelete_ne (l : List (κ × α)) (k k' : κ) (h : k' ≠ k) :
    jsMapGet (jsMapDelete l k) k' = jsMapGet l k' := by
  have hk : ¬ (k = k') := fun hh => h hh.symm
  induction l with
  | nil => simp [jsMapDelete_nil]
  | cons p rest ih =>
    rw [jsMapDelete_cons]
    by_cases hp : p.1 = k
    · have hpk' : ¬ (p.1 = k') := by rw [hp]; exact hk
      simp [hp, hpk', hk, ih]
    · by_cases hp' : p.1 = k'
      · simp [hp, hp', h, hk]
      · simp [hp, hp', ih]

end MapLemmas

section PredicateLemmas

theorem forwardBool_mem {acc : List (String × JsVal)} {p q : String × JsVal}
    (h : q ∈ forwardBool acc p) : q ∈ acc ∨ ∃ b, q = (p.1, JsVal.jbool b) := by
  rcases hv : p.2 with _ | b | n | s | l <;> simp [forwardBool, hv] at h
  case jbool =>
    rcases mem_jsMapSet h with h' | h'
    · exact Or.inl h'
    · exact Or.inr ⟨b, h'⟩
  all_goals exact Or.inl h

theorem foldl_forwardBool_mem :
    ∀ (entries : List (String × JsVal)) (acc : List (String × JsVal)) (q : String × JsVal),
      q ∈ entries.foldl forwardBool acc → q ∈ acc ∨ ∃ b, q.2 = JsVal.jbool b := by
  intro entries
  induction entries with
  | nil => intro acc q h; exact Or.inl h
  | cons e rest ih =>
    intro acc q h
    rcases ih (forwardBool acc e) q h with h' | h'
    · rcases forwardBool_mem h' with h'' | ⟨b, h''⟩
      · exact Or.inl h''
      · exact Or.inr ⟨b, by rw [h'']⟩
    · exact Or.inr h'

theorem forwardBool_get_none {acc : List (String × JsVal)} {e : String × JsVal} {k : String}
    (hacc : jsMapGet acc k = none)
    (he : ∀ b, e = (k, JsVal.jbool b) → False) :
    jsMapGet (forwardBool acc e) k = none := by
  rcases hv : e.2 with _ | b | n | s | l <;> simp [forwardBool, hv]
  case jbool =>
    by_cases hk : e.1 = k
    · exact absurd (by rw [← hk, ← hv]) (he b)
    · rw [jsMapGet_jsMapSet_ne _ _ _ _ (fun hh => hk hh.symm)]
      exact hacc
  all_goals exact hacc

theorem foldl_forwardBool_get_none :
    ∀ (entries : List (String × JsVal)) (acc : List (String × JsVal)) (k : String),
      jsMapGet acc k = none →
      (∀ v, (k, v) ∈ entries → ∀ b, v ≠ JsVal.jbool b) →
      jsMapGet (entries.foldl forwardBool acc) k = none := by
  intro entries
  induction entries with
  | nil => intro acc k hacc _; exact hacc
  | cons e rest ih =>
    intro acc k hacc hent
    refine ih (forwardBool acc e) k ?_ ?_
    · refine forwardBool_get_none hacc ?_
      intro b hb
      exact hent (JsVal.jbool b) (by rw [← hb]; exact List.mem_cons_self _ _) b rfl
    · intro v hv b
      exact hent v (List.mem_cons_of_mem _ hv) b

theorem nodup_keys_unique {α : Type} {l : List (String × α)}
    (hn : (l.map Prod.fst).Nodup) {k : String} {v v' : α}
    (h1 : (k, v) ∈ l) (h2 : (k, v') ∈ l) : v = v' := by
  induction l with
  | nil => cases h1
  | cons p rest ih =>
    rw [List.map_cons, List.nodup_cons] at hn
    rcases hn with ⟨hp, hrest⟩
    rcases List.mem_cons.mp h1 with h1' | h1'
    · rcases List.mem_cons.mp h2 with h2' | h2'
      · have h3 : (k, v) = (k, v') := h1'.trans h2'.symm
        injection h3 with h4 h5
      · exfalso
        have hk : p.1 = k := by rw [← h1']
        exact hp (List.mem_map.mpr ⟨(k, v'), h2', hk.symm⟩)
    · rcases List.mem_cons.mp h2 with h2' | h2'
      · exfalso
        have hk : p.1 = k := by rw [← h2']
        exact hp (List.mem_map.mpr ⟨(k, v), h1', hk.symm⟩)
      · exact ih hrest h1' h2'

theorem withIssuer_none {r : LongfellowResult} (h : r.issuer = none) :
    withIssuer r = withOver18 r := by
  unfold withIssuer
  rw [h]

theorem withIssuer_some {r : LongfellowResult} {s : String} (h : r.issuer = some s) :
    withIssuer r =
      if s = "" then withOver18 r
      else jsMapSet (withOver18 r) "issuerJurisdiction" (JsVal.jstr s) := by
  unfold withIssuer
  rw [h]

theorem isExplicitFalse_eq_false {o : Option JsVal} (h : o ≠ some (JsVal.jbool false)) :
    isExplicitFalse o = false := by
  rcases o with _ | v
  · rfl
  · rcases v with _ | b | n | s | l
    · rfl
    · cases b
      · exact absurd rfl h
      · rfl
    · rfl
    · rfl
    · rfl

end PredicateLemmas

section ClaimC1

/-- C1: the predicates object returned by the presentation verifier is
data-minimized.  (a) Every entry is boolean-valued, except for the derived
issuerJurisdiction entry which carries the remote issuer label.  (b) A key
whose remote claim value is non-boolean (and which is not one of the four
derived keys) is absent from the output.  (c)/(d) The derived notExpired
entry is true unless the remote result sets the namespaced not_expired
predicate to exactly false, in which case it is false. -/
theorem extractPredicates_data_minimization (r : LongfellowResult) :
    (∀ k v, (k, v) ∈ extractPredicates r →
      (∃ b, v = JsVal.jbool b) ∨
        (k = "issuerJurisdiction" ∧ ∃ s, r.issuer = some s ∧ v = JsVal.jstr s)) ∧
    (∀ entries k v, r.predicates = some entries →
      (entries.map Prod.fst).Nodup → (k, v) ∈ entries →
      (∀ b, v ≠ JsVal.jbool b) →
      k ∉ ["over21", "over18", "issuerJurisdiction", "notExpired"] →
      jsMapGet (extractPredicates r) k = none) ∧
    (remotePred r "org.iso.18013.5.1.not_expired" ≠ some (JsVal.jbool false) →
      jsMapGet (extractPredicates r) "notExpired" = some (JsVal.jbool true)) ∧
    (remotePred r "org.iso.18013.5.1.not_expired" = some (JsVal.jbool false) →
      jsMapGet (extractPredicates r) "notExpired" = some (JsVal.jbool false)) := by
  refine ⟨?_, ?_, ?_, ?_⟩
  · -- (a) every output entry is a boolean or the issuer label
    intro k v hmem
    unfold extractPredicates at hmem
    rcases mem_jsMapSet hmem with hmem | hmem
    · -- entry of withIssuer
      have hOver18 : ∀ q : String × JsVal, q ∈ withOver18 r →
          (∃ b, q.2 = JsVal.jbool b) := by
        intro q hq
        have hOver21 : ∀ q' : String × JsVal, q' ∈ withOver21 r →
            (∃ b, q'.2 = JsVal.jbool b) := by
          intro q' hq'
          have hbase : ∀ q'' : String × JsVal, q'' ∈ forwardedBooleans r →
              (∃ b, q''.2 = JsVal.jbool b) := by
            intro q'' hq''
            unfold forwardedBooleans at hq''
            rcases hp : r.predicates with _ | entries
            · rw [hp] at hq''; cases hq''
            · rw [hp] at hq''
              rcases foldl_forwardBool_mem entries [] q'' hq'' with h | h
              · cases h
              · exact h
          unfold withOver21 at hq'
          by_cases hc : jsOptTruthy (remotePred r "org.iso.18013.5.1.age_over_21")
          · rw [if_pos hc] at hq'
            rcases mem_jsMapSet hq' with h | h
            · exact hbase _ h
            · exact ⟨true, by rw [h]⟩
          · rw [if_neg hc] at hq'
            exact hbase _ hq'
        unfold withOver18 at hq
        by_cases hc : jsOptTruthy (remotePred r "org.iso.18013.5.1.age_over_18")
        · rw [if_pos hc] at hq
          rcases mem_jsMapSet hq with h | h
          · exact hOver21 _ h
          · exact ⟨true, by rw [h]⟩
        · rw [if_neg hc] at hq
          exact hOver21 _ hq
      rcases hI : r.issuer with _ | s
      · rw [withIssuer_none hI] at hmem
        rcases hOver18 _ hmem with ⟨b, hb⟩
        exact Or.inl ⟨b, hb⟩
      · rw [withIssuer_some hI] at hmem
        by_cases hs : s = ""
        · rw [if_pos hs] at hmem
          rcases hOver18 _ hmem with ⟨b, hb⟩
          exact Or.inl ⟨b, hb⟩
        · rw [if_neg hs] at hmem
          rcases mem_jsMapSet hmem with h | h
          · rcases hOver18 _ h with ⟨b, hb⟩
            exact Or.inl ⟨b, hb⟩
          · refine Or.inr ⟨?_, s, rfl, ?_⟩
            · exact congrArg Prod.fst h
            · exact congrArg Prod.snd h
    · exact Or.inl ⟨!isExplicitFalse (remotePred r "org.iso.18013.5.1.not_expired"),
        congrArg Prod.snd hmem⟩
  · -- (b) non-boolean remote claims are dropped
    intro entries k v hp hn hmem hnb hk
    simp at hk
    push_neg at hk
    rcases hk with ⟨hk21, hk18, hkJ, hkNE⟩
    have hall : ∀ v', (k, v') ∈ entries → ∀ b, v' ≠ JsVal.jbool b := by
      intro v' hv' b
      rw [nodup_keys_unique hn hv' hmem]
      exact hnb b
    have hbase : jsMapGet (forwardedBooleans r) k = none := by
      unfold forwardedBooleans
      rw [hp]
      exact foldl_forwardBool_get_none entries [] k rfl hall
    have h21 : jsMapGet (withOver21 r) k = none := by
      unfold withOver21
      by_cases hc : jsOptTruthy (remotePred r "org.iso.18013.5.1.age_over_21")
      · rw [if_pos hc, jsMapGet_jsMapSet_ne _ _ _ _ hk21]
        exact hbase
      · rw [if_neg hc]; exact hbase
    have h18 : jsMapGet (withOver18 r) k = none := by
      unfold withOver18
      by_cases hc : jsOptTruthy (remotePred r "org.iso.18013.5.1.age_over_18")
      · rw [if_pos hc, jsMapGet_jsMapSet_ne _ _ _ _ hk18]
        exact h21
      · rw [if_neg hc]; exact h21
    have hJ : jsMapGet (withIssuer r) k = none := by
      rcases hI : r.issuer with _ | s
      · rw [withIssuer_none hI]; exact h18
      · rw [withIssuer_some hI]
        by_cases hs : s = ""
        · rw [if_pos hs]; exact h18
        · rw [if_neg hs, jsMapGet_jsMapSet_ne _ _ _ _ hkJ]
          exact h18
    unfold extractPredicates
    rw [jsMapGet_jsMapSet_ne _ _ _ _ hkNE]
    exact hJ
  · -- (c) notExpired defaults to true
    intro h
    unfold extractPredicates
    rw [jsMapGet_jsMapSet_self, isExplicitFalse_eq_false h]
    rfl
  · -- (d) notExpired is false when the remote result sets it to exactly false
    intro h
    unfold extractPredicates
    rw [jsMapGet_jsMapSet_self, h]
    rfl

/-- Witness for C1 at the concrete remote result of spec section 8: the
birthDate string claim is absent from the minimized predicates, over21 is
forwarded as a boolean, and notExpired defaults to true. -/
theorem extractPredicates_data_minimization_witness :
    jsMapGet (extractPredicates
      { valid := true
      , predicates := some [("org.iso.18013.5.1.age_over_21", JsVal.jbool true),
                            ("birthDate", JsVal.jstr "1990-01-01")]
      , issuer := some "CA-DMV" }) "birthDate" = none ∧
    jsMapGet (extractPredicates
      { valid := true
      , predicates := some [("org.iso.18013.5.1.age_over_21", JsVal.jbool true),
                            ("birthDate", JsVal.jstr "1990-01-01")]
      , issuer := some "CA-DMV" }) "notExpired" = some (JsVal.jbool true) := by
  constructor
  · exact (extractPredicates_data_minimization _).2.1
      [("org.iso.18013.5.1.age_over_21", JsVal.jbool true), ("birthDate", JsVal.jstr "1990-01-01")]
      "birthDate" (JsVal.jstr "1990-01-01") rfl (by simp)
      (List.mem_cons_of_mem _ (List.mem_cons_self _ _))
      (fun b h => JsVal.noConfusion h) (by simp)
  · exact (extractPredicates_data_minimization _).2.2.1 (by simp [remotePred, jsMapGet])

end ClaimC1

section ClaimC7

/-- C7 counterexample: a corrupted session transcript whose first two
elements are non-null and whose handover tag is not
OpenID4VPDCAPIHandover is nonetheless accepted by
validateSessionTranscript, contradicting the claim that every such
corrupted transcript is rejected (the source only logs a warning for the
non-null elements and never inspects the tag). -/
theorem validateSessionTranscript_accepts_corrupted :
    validateSessionTranscript
      (JsVal.jarr [JsVal.jnum 1, JsVal.jnum 2, JsVal.jarr [JsVal.jstr "NotTheHandoverTag"]])
      = true := rfl

/-- C7 amended: validateSessionTranscript rejects exactly the non-array
inputs, the arrays whose length is not 3, and the transcripts whose third
element (the handover) is not itself an array; the handover tag and the
nullity of the first two elements are never checked. -/
theorem validateSessionTranscript_characterization (v : JsVal) :
    validateSessionTranscript v = true ↔
      ∃ a b h, v = JsVal.jarr [a, b, JsVal.jarr h] := by
  constructor
  · intro hv
    rcases v with _ | b0 | n0 | s0 | l
    · cases hv
    · cases hv
    · cases hv
    · cases hv
    · rcases l with _ | ⟨a, l⟩
      · cases hv
      · rcases l with _ | ⟨b, l⟩
        · cases hv
        · rcases l with _ | ⟨c, l⟩
          · cases hv
          · rcases l with _ | ⟨d, l⟩
            · rcases c with _ | cb | cn | cs | cl
              · cases hv
              · cases hv
              · cases hv
              · cases hv
              · exact ⟨a, b, cl, rfl⟩
            · cases hv
  · rintro ⟨a, b, h, rfl⟩
    rfl

end ClaimC7

section VerifyPresentationModel

/-- Caller-visible result of verifyPresentation (src/unnamed/part_002,
lines 19-74).  The record lists the properties the source ever places on
the returned object; mock is an Option that stays none because no code
path of verifyPresentation sets a mock property on its result. -/
structure VerificationResult where
  valid : Bool
  predicates : Option (List (String × JsVal)) := none
  sessionId : Option String := none
  error : Option String := none
  mock : Option Bool := none
deriving Repr

/-- Outcome of the fetch to the Longfellow verifier service, as
distinguished by verifyWithLongfellow (src/unnamed/part_002, lines
82-118): a 2xx JSON response, a non-2xx response with an error body, a
connection-refused failure, or any other network failure. -/
inductive RemoteOutcome where
  | httpOk : LongfellowResult → RemoteOutcome
  | httpError : Nat → String → RemoteOutcome
  | connRefused : RemoteOutcome
  | otherNetworkError : String → RemoteOutcome

/-- Embedding of mockLongfellowResponse (src/unnamed/part_002, lines
125-136): the synthetic development result substituted when Longfellow is
unreachable; it carries mock := true. -/
def mockLongfellowResponse (isoNow : String) : LongfellowResult :=
  { valid := true
  , predicates := some [("org.iso.18013.5.1.age_over_21", JsVal.jbool true),
                        ("org.iso.18013.5.1.not_expired", JsVal.jbool true)]
  , issuer := some "CA-DMV"
  , issuedAt := some isoNow
  , mock := true }

/-- Embedding of verifyWithLongfellow (src/unnamed/part_002, lines 82-118):
a 2xx response body is returned as is; a non-2xx response and a generic
network failure produce invalid results; a refused connection substitutes
the mock response. -/
def verifyWithLongfellow (outcome : RemoteOutcome) (isoNow : String) : LongfellowResult :=
  match outcome with
  | .httpOk r => r
  | .httpError status body =>
    { valid := false
    , error := some ("Longfellow returned " ++ toString status ++ ": " ++ body) }
  | .connRefused => mockLongfellowResponse isoNow
  | .otherNetworkError msg =>
    { valid := false, error := some ("Failed to reach Longfellow: " ++ msg) }

/-- Embedding of steps 4-6 of verifyPresentation (src/unnamed/part_002,
lines 49-65): the remote result is checked for validity, reduced via
extractPredicates, and returned with a fresh session identifier; no other
property of the remote result reaches the caller. -/
def finishVerifyPresentation (longfellowResult : LongfellowResult)
    (freshSessionId : String) : VerificationResult :=
  if !longfellowResult.valid then
    { valid := false
    , error := some (jsOrString longfellowResult.error "Longfellow verification failed") }
  else
    { valid := true
    , predicates := some (extractPredicates longfellowResult)
    , sessionId := some freshSessionId }

/-- The remote call followed by the result reduction: the portion of
verifyPresentation downstream of decryption and transcript building. -/
def verifyPresentationFromRemote (outcome : RemoteOutcome) (isoNow freshSessionId : String) :
    VerificationResult :=
  finishVerifyPresentation (verifyWithLongfellow outcome isoNow) freshSessionId

end VerifyPresentationModel

section ClaimC5

/-- C5 counterexample: when Longfellow is unreachable (connection refused)
the synthetic mock result is substituted, yet the result the caller of
verifyPresentation receives is valid := true with no mock marker, so the
claim that the caller-visible result carries mock: true whenever synthetic
data is substituted is false. -/
theorem mock_flag_not_forwarded :
    (verifyPresentationFromRemote .connRefused "2024-01-01T00:00:00.000Z" "sid-1").valid = true ∧
    (verifyPresentationFromRemote .connRefused "2024-01-01T00:00:00.000Z" "sid-1").mock = none :=
  ⟨rfl, rfl⟩

/-- C5 amended: the synthetic result substituted inside verifyWithLongfellow
when the connection is refused does carry mock := true, but
verifyPresentation drops the flag during reduction: its caller receives a
result whose mock property is absent and whose valid flag is true, exactly
as for a genuine successful verification. -/
theorem mock_flag_internal_only (isoNow freshSessionId : String) :
    (verifyWithLongfellow .connRefused isoNow).mock = true ∧
    (verifyPresentationFromRemote .connRefused isoNow freshSessionId).mock = none ∧
    (verifyPresentationFromRemote .connRefused isoNow freshSessionId).valid = true :=
  ⟨rfl, rfl, rfl⟩

end ClaimC5

section TrustStoreModel

/-- Certificate entry of a VICAL jurisdiction (src/unnamed/part_004).  The
validity bounds are epoch milliseconds; the source parses its ISO strings
with new Date and compares the resulting time values. -/
structure Certificate where
  kid : String
  certType : String
  algorithm : String
  publicKey : String
  validFrom : Int
  validUntil : Int
deriving Repr, DecidableEq

/-- One jurisdiction record of the VICAL list. -/
structure TrustJurisdiction where
  code : String
  name : String
  issuer : String
  certificates : List Certificate
deriving Repr, DecidableEq

/-- Body of a VICAL endpoint response, restricted to the properties
fetchVical reads (jurisdictions and version). -/
structure VicalResponse where
  version : Option String := none
  jurisdictions : List TrustJurisdiction := []
deriving Repr

/-- Locally cached VICAL data as assembled and saved by fetchVical.  Note
that the record carries no staleness field of any kind. -/
structure VicalCache where
  jurisdictions : List TrustJurisdiction
  timestamp : Int
  version : String
deriving Repr, DecidableEq

/-- The 24-hour cache TTL in milliseconds (src/unnamed/part_004, line 13). -/
def vicalCacheTtl : Int := 24 * 60 * 60 * 1000

/-- ASCII model of String.prototype.toUpperCase, applied to jurisdiction
codes. -/
def jsToUpper (s : String) : String := (s.data.map Char.toUpper).asString

/-- Text before the first dash of a string, the source expression
issuerCode.split(the dash)[0]; the whole string when no dash occurs. -/
def splitDashHead (s : String) : String := ((s.data.splitOn '-').headD []).asString

/-- Embedding of getMockVicalData (src/unnamed/part_004, lines 94-146);
the ISO validity strings 2024-01-01T00:00:00Z and 2025-12-31T23:59:59Z are
the epochs 1704067200000 and 1767225599000 in milliseconds. -/
def getMockVicalData : VicalResponse :=
  { version := some "1.0"
  , jurisdictions :=
      [ { code := "CA", name := "California", issuer := "CA-DMV"
        , certificates := [{ kid := "ca-dmv-2024-01", certType := "IACA", algorithm := "ES256"
                           , publicKey := "mock-public-key-ca"
                           , validFrom := 1704067200000, validUntil := 1767225599000 }] }
      , { code := "NY", name := "New York", issuer := "NY-DMV"
        , certificates := [{ kid := "ny-dmv-2024-01", certType := "IACA", algorithm := "ES256"
                           , publicKey := "mock-public-key-ny"
                           , validFrom := 1704067200000, validUntil := 1767225599000 }] }
      , { code := "FL", name := "Florida", issuer := "FL-DMV"
        , certificates := [{ kid := "fl-dmv-2024-01", certType := "IACA", algorithm := "ES256"
                           , publicKey := "mock-public-key-fl"
                           , validFrom := 1704067200000, validUntil := 1767225599000 }] } ] }

/-- Outcome of the GET against the VICAL endpoint. -/
inductive TrustRemoteOutcome where
  | ok : VicalResponse → TrustRemoteOutcome
  | httpError : Nat → TrustRemoteOutcome
  | networkError : String → TrustRemoteOutcome

/-- Embedding of fetchVicalData (src/unnamed/part_004, lines 67-88): a
successful JSON response is returned; any non-2xx status or network
failure is caught inside the function and replaced by the built-in mock
data, so fetchVicalData never fails. -/
def fetchVicalData (outcome : TrustRemoteOutcome) : VicalResponse :=
  match outcome with
  | .ok r => r
  | .httpError _ => getMockVicalData
  | .networkError _ => getMockVicalData

/-- Cache record built from a fresh fetch (src/unnamed/part_004, lines
37-41): jurisdictions and version from the response (version defaulting to
1.0), timestamp the current time. -/
def refreshedVical (now : Int) (outcome : TrustRemoteOutcome) : VicalCache :=
  let response := fetchVicalData outcome
  { jurisdictions := response.jurisdictions
  , timestamp := now
  , version := jsOrString response.version "1.0" }

/-- Embedding of fetchVical (src/unnamed/part_004, lines 19-61).  cache is
the stored vical.json (none when absent); internalFailure models an error
thrown inside the body itself (for example cache-directory creation
failing), the only way the catch block is reachable given that
fetchVicalData never throws.  Returns the result paired with the new cache
contents. -/
def fetchVical (now : Int) (cache : Option VicalCache) (outcome : TrustRemoteOutcome)
    (internalFailure : Bool) : Except String (VicalCache × Option VicalCache) :=
  if internalFailure then
    match cache with
    | some c => .ok (c, some c)
    | none => .error "VICAL fetch failed and no cache available"
  else
    match cache with
    | some c =>
      if !(now - c.timestamp > vicalCacheTtl) then .ok (c, some c)
      else .ok (refreshedVical now outcome, some (refreshedVical now outcome))
    | none => .ok (refreshedVical now outcome, some (refreshedVical now outcome))

/-- Embedding of getIssuerCertificates (src/unnamed/part_004, lines
191-203): fetches the VICAL data and returns the certificate list of the
jurisdiction whose code matches the uppercased argument, failing when the
jurisdiction is absent. -/
def getIssuerCertificates (now : Int) (cache : Option VicalCache)
    (outcome : TrustRemoteOutcome) (internalFailure : Bool)
    (jurisdictionCode : String) : Except String (List Certificate) :=
  match fetchVical now cache outcome internalFailure with
  | .error e => .error e
  | .ok (vicalData, _) =>
    match vicalData.jurisdictions.find? (fun j => j.code == jsToUpper jurisdictionCode) with
    | none => .error ("Jurisdiction " ++ jurisdictionCode ++ " not found in VICAL")
    | some j => .ok j.certificates

/-- Embedding of isJurisdictionAccepted (src/issuer/keys.js allow-list
part): membership of the uppercased code in the configured allow-list
(default CA, NY, FL). -/
def isJurisdictionAccepted (acceptedJurisdictions : List String) (code : String) : Bool :=
  acceptedJurisdictions.contains (jsToUpper code)

/-- Verdict returned by verifyIssuer. -/
structure IssuerVerdict where
  accepted : Bool
  reason : Option String := none
  certificate : Option Certificate := none
deriving Repr, DecidableEq

/-- Embedding of verifyIssuer (src/issuer/keys.js, lines 113-162 of the
pinning module): extracts the jurisdiction prefix before the first dash,
rejects when it is not allow-listed, rejects when the trust data cannot be
obtained or lacks the jurisdiction, rejects when no certificate carries the
kid, rejects when now lies outside the certificate validity window, and
otherwise accepts returning the matched certificate. -/
def verifyIssuer (acceptedJurisdictions : List String) (now : Int)
    (cache : Option VicalCache) (outcome : TrustRemoteOutcome) (internalFailure : Bool)
    (issuerCode kid : String) : IssuerVerdict :=
  let jurisdictionCode := jsToUpper (splitDashHead issuerCode)
  if !(isJurisdictionAccepted acceptedJurisdictions jurisdictionCode) then
    { accepted := false
    , reason := some ("Jurisdiction " ++ jurisdictionCode ++ " not in accepted list") }
  else
    match getIssuerCertificates now cache outcome internalFailure jurisdictionCode with
    | .error e =>
      { accepted := false, reason := some ("Error verifying issuer: " ++ e) }
    | .ok certificates =>
      match certificates.find? (fun c => c.kid == kid) with
      | none =>
        { accepted := false
        , reason := some ("Key ID " ++ kid ++ " not found in trusted certificates for "
                            ++ jurisdictionCode) }
      | some cert =>
        if now < cert.validFrom || now > cert.validUntil then
          { accepted := false
          , reason := some ("Certificate " ++ kid ++ " is not currently valid") }
        else
          { accepted := true, certificate := some cert }

end TrustStoreModel

section ClaimC3

/-- C3: verifyIssuer rejects when the jurisdiction prefix of the issuer
label is not allow-listed, rejects when the trust data is unavailable or
the jurisdiction unknown, rejects when no certificate of the jurisdiction
carries the kid, rejects when now lies outside the matched certificate
validity window, accepts exactly when all the checks pass, and then
returns the matched certificate. -/
theorem verifyIssuer_checks (acceptedJurisdictions : List String) (now : Int)
    (cache : Option VicalCache) (outcome : TrustRemoteOutcome) (internalFailure : Bool)
    (issuerCode kid : String) :
    (isJurisdictionAccepted acceptedJurisdictions (jsToUpper (splitDashHead issuerCode)) = false →
      (verifyIssuer acceptedJurisdictions now cache outcome internalFailure issuerCode kid).accepted
        = false) ∧
    (∀ e, getIssuerCertificates now cache outcome internalFailure
        (jsToUpper (splitDashHead issuerCode)) = .error e →
      (verifyIssuer acceptedJurisdictions now cache outcome internalFailure issuerCode kid).accepted
        = false) ∧
    (∀ certs, getIssuerCertificates now cache outcome internalFailure
        (jsToUpper (splitDashHead issuerCode)) = .ok certs →
      certs.find? (fun c => c.kid == kid) = none →
      (verifyIssuer acceptedJurisdictions now cache outcome internalFailure issuerCode kid).accepted
        = false) ∧
    (∀ certs cert, getIssuerCertificates now cache outcome internalFailure
        (jsToUpper (splitDashHead issuerCode)) = .ok certs →
      certs.find? (fun c => c.kid == kid) = some cert →
      (now < cert.validFrom ∨ cert.validUntil < now) →
      (verifyIssuer acceptedJurisdictions now cache outcome internalFailure issuerCode kid).accepted
        = false) ∧
    ((verifyIssuer acceptedJurisdictions now cache outcome internalFailure issuerCode kid).accepted
        = true ↔
      isJurisdictionAccepted acceptedJurisdictions (jsToUpper (splitDashHead issuerCode)) = true ∧
      ∃ certs cert, getIssuerCertificates now cache outcome internalFailure
          (jsToUpper (splitDashHead issuerCode)) = .ok certs ∧
        certs.find? (fun c => c.kid == kid) = some cert ∧
        cert.validFrom ≤ now ∧ now ≤ cert.validUntil) ∧
    (∀ certs cert,
      isJurisdictionAccepted acceptedJurisdictions (jsToUpper (splitDashHead issuerCode)) = true →
      getIssuerCertificates now cache outcome internalFailure
        (jsToUpper (splitDashHead issuerCode)) = .ok certs →
      certs.find? (fun c => c.kid == kid) = some cert →
      cert.validFrom ≤ now → now ≤ cert.validUntil →
      verifyIssuer acceptedJurisdictions now cache outcome internalFailure issuerCode kid
        = { accepted := true, reason := none, certificate := some cert }) := by
  by_cases hacc :
      isJurisdictionAccepted acceptedJurisdictions (jsToUpper (splitDashHead issuerCode)) = true
  · rcases hg : getIssuerCertificates now cache outcome internalFailure
        (jsToUpper (splitDashHead issuerCode)) with e | certs
    · refine ⟨?_, ?_, ?_, ?_, ?_, ?_⟩
      · intro h; rw [hacc] at h; cases h
      · intro e' _; simp [verifyIssuer, hacc, hg]
      · intro certs hok; exact absurd hok (by simp)
      · intro certs cert hok; exact absurd hok (by simp)
      · constructor
        · intro h; exfalso
          simp [verifyIssuer, hacc, hg] at h
        · rintro ⟨_, certs, cert, hok, _⟩
          exact absurd hok (by simp)
      · intro certs cert _ hok; exact absurd hok (by simp)
    · rcases hf : certs.find? (fun c => c.kid == kid) with _ | cert
      · refine ⟨?_, ?_, ?_, ?_, ?_, ?_⟩
        · intro h; rw [hacc] at h; cases h
        · intro e' he'; exact absurd he' (by simp)
        · intro certs' hok hnone
          simp [verifyIssuer, hacc, hg, hf]
        · intro certs' cert hok hsome
          injection hok with hok
          subst hok
          rw [hf] at hsome
          cases hsome
        · constructor
          · intro h; exfalso
            simp [verifyIssuer, hacc, hg, hf] at h
          · rintro ⟨_, certs', cert, hok, hsome, _⟩
            injection hok with hok
            subst hok
            rw [hf] at hsome
            cases hsome
        · intro certs' cert _ hok hsome
          injection hok with hok
          subst hok
          rw [hf] at hsome
          cases hsome
      · by_cases hw : now < cert.validFrom || now > cert.validUntil
        · refine ⟨?_, ?_, ?_, ?_, ?_, ?_⟩
          · intro h; rw [hacc] at h; cases h
          · intro e' he'; exact absurd he' (by simp)
          · intro certs' hok hnone
            injection hok with hok
            subst hok
            rw [hf] at hnone
            cases hnone
          · intro certs' cert' hok hsome _
            simp [verifyIssuer, hacc, hg, hf, hw]
          · constructor
            · intro h; exfalso
              simp [verifyIssuer, hacc, hg, hf, hw] at h
            · rintro ⟨_, certs', cert', hok, hsome, h1, h2⟩
              injection hok with hok
              subst hok
              rw [hf] at hsome
              injection hsome with hsome
              subst hsome
              rw [Bool.or_eq_true, decide_eq_true_iff, decide_eq_true_iff] at hw
              omega
          · intro certs' cert' _ hok hsome h1 h2
            injection hok with hok
            subst hok
            rw [hf] at hsome
            injection hsome with hsome
            subst hsome
            rw [Bool.or_eq_true, decide_eq_true_iff, decide_eq_true_iff] at hw
            omega
        · refine ⟨?_, ?_, ?_, ?_, ?_, ?_⟩
          · intro h; rw [hacc] at h; cases h
          · intro e' he'; exact absurd he' (by simp)
          · intro certs' hok hnone
            injection hok with hok
            subst hok
            rw [hf] at hnone
            cases hnone
          · intro certs' cert' hok hsome hout
            injection hok with hok
            subst hok
            rw [hf] at hsome
            injection hsome with hsome
            subst hsome
            rw [Bool.not_eq_true, Bool.or_eq_false_iff, decide_eq_false_iff_not,
              decide_eq_false_iff_not] at hw
            rcases hout with hout | hout <;> omega
          · constructor
            · intro _
              rw [Bool.not_eq_true, Bool.or_eq_false_iff, decide_eq_false_iff_not,
                decide_eq_false_iff_not] at hw
              exact ⟨hacc, certs, cert, rfl, hf, by omega, by omega⟩
            · intro _
              simp [verifyIssuer, hacc, hg, hf, hw]
          · intro certs' cert' _ hok hsome _ _
            injection hok with hok
            subst hok
            rw [hf] at hsome
            injection hsome with hsome
            subst hsome
            simp [verifyIssuer, hacc, hg, hf, hw]
  · rw [Bool.not_eq_true] at hacc
    refine ⟨?_, ?_, ?_, ?_, ?_, ?_⟩
    · intro _; simp [verifyIssuer, hacc]
    · intro e _; simp [verifyIssuer, hacc]
    · intro certs _ _; simp [verifyIssuer, hacc]
    · intro certs cert _ _ _; simp [verifyIssuer, hacc]
    · constructor
      · intro h; exfalso
        simp [verifyIssuer, hacc] at h
      · rintro ⟨h, _⟩
        rw [hacc] at h; cases h
    · intro certs cert hacc2 _ _ _ _
      rw [hacc] at hacc2
      cases hacc2

/-- Witness for C3 at a concrete accepting input: default allow-list, no
cache, unreachable VICAL endpoint (mock data substituted), issuer CA-DMV
with the mock California kid, at an instant inside the certificate
validity window. -/
theorem verifyIssuer_checks_witness :
    verifyIssuer ["CA", "NY", "FL"] 1717200000000 none (.networkError "down") false
        "CA-DMV" "ca-dmv-2024-01"
      = { accepted := true, reason := none
        , certificate := some { kid := "ca-dmv-2024-01", certType := "IACA"
                              , algorithm := "ES256", publicKey := "mock-public-key-ca"
                              , validFrom := 1704067200000, validUntil := 1767225599000 } } := by
  exact (verifyIssuer_checks ["CA", "NY", "FL"] 1717200000000 none (.networkError "down") false
      "CA-DMV" "ca-dmv-2024-01").2.2.2.2.2
    [{ kid := "ca-dmv-2024-01", certType := "IACA", algorithm := "ES256"
     , publicKey := "mock-public-key-ca"
     , validFrom := 1704067200000, validUntil := 1767225599000 }]
    { kid := "ca-dmv-2024-01", certType := "IACA", algorithm := "ES256"
    , publicKey := "mock-public-key-ca"
    , validFrom := 1704067200000, validUntil := 1767225599000 }
    (by decide) rfl rfl (by decide) (by decide)

end ClaimC3

section ClaimC8

/-- A stale cache value used to exercise the refresh-failure path: its
timestamp is older than the 24-hour TTL relative to the chosen now. -/
def staleVicalCache : VicalCache :=
  { jurisdictions := [{ code := "ZZ", name := "Stale Land", issuer := "ZZ-OLD"
                      , certificates := [] }]
  , timestamp := 0
  , version := "0.9" }

/-- C8 counterexample: with a stale cache present and the remote trust
endpoint unreachable, fetchVical does not return the existing cache at
all; it substitutes the built-in mock jurisdictions and returns them as a
fresh result (which also overwrites the cache), and no stale tag of any
kind exists on the result.  This contradicts the claim that a failed
refresh falls back to the existing cache tagged stale=true. -/
theorem fetchVical_refresh_failure_substitutes_mock :
    fetchVical (vicalCacheTtl + 1) (some staleVicalCache) (.networkError "connection refused") false
      = .ok ({ jurisdictions := getMockVicalData.jurisdictions
             , timestamp := vicalCacheTtl + 1, version := "1.0" },
             some { jurisdictions := getMockVicalData.jurisdictions
                  , timestamp := vicalCacheTtl + 1, version := "1.0" }) ∧
    getMockVicalData.jurisdictions ≠ staleVicalCache.jurisdictions := by
  constructor
  · rfl
  · decide

/-- C8 amended: when the remote fetch fails (network failure or non-2xx
status), fetchVicalData substitutes the built-in mock data that fetchVical
then returns, caches and reports as fresh, ignoring any existing stale
cache; only an error raised inside fetchVical itself reaches the catch
block, which returns the existing cache unchanged (carrying no stale flag)
or, when no cache exists, fails with the no-cache error message. -/
theorem fetchVical_failure_semantics (now : Int) (cache : Option VicalCache) (msg : String) :
    (∀ c, cache = some c → now - c.timestamp > vicalCacheTtl →
      fetchVical now cache (.networkError msg) false
        = .ok ({ jurisdictions := getMockVicalData.jurisdictions
               , timestamp := now, version := "1.0" },
               some { jurisdictions := getMockVicalData.jurisdictions
                    , timestamp := now, version := "1.0" })) ∧
    (∀ c, cache = some c →
      fetchVical now cache (.networkError msg) true = .ok (c, some c)) ∧
    (cache = none →
      fetchVical now cache (.networkError msg) true
        = .error "VICAL fetch failed and no cache available") := by
  refine ⟨?_, ?_, ?_⟩
  · intro c hc hstale
    subst hc
    have hcond : (now - c.timestamp > vicalCacheTtl) = True := eq_true hstale
    simp only [fetchVical, Bool.false_eq_true, if_false, hcond]
    simp [refreshedVical, fetchVicalData, getMockVicalData, jsOrString, hstale]
  · intro c hc
    subst hc
    rfl
  · intro hc
    subst hc
    rfl

/-- Witness for C8 at concrete inputs: the stale-cache refresh failure
substitutes the mock data; the internal failure path returns the cache
unchanged; the internal failure path with no cache fails with the no-cache
error. -/
theorem fetchVical_failure_semantics_witness :
    fetchVical (vicalCacheTtl + 1) (some staleVicalCache) (.networkError "down") false
      = .ok ({ jurisdictions := getMockVicalData.jurisdictions
             , timestamp := vicalCacheTtl + 1, version := "1.0" },
             some { jurisdictions := getMockVicalData.jurisdictions
                  , timestamp := vicalCacheTtl + 1, version := "1.0" }) ∧
    fetchVical 5 (some staleVicalCache) (.networkError "down") true
      = .ok (staleVicalCache, some staleVicalCache) ∧
    fetchVical 5 none (.networkError "down") true
      = .error "VICAL fetch failed and no cache available" :=
  ⟨(fetchVical_failure_semantics (vicalCacheTtl + 1) (some staleVicalCache) "down").1
      staleVicalCache rfl (by decide),
   (fetchVical_failure_semantics 5 (some staleVicalCache) "down").2.1 staleVicalCache rfl,
   (fetchVical_failure_semantics 5 none "down").2.2 rfl⟩

end ClaimC8

section IssuanceSessionModel

/-- Session record stored by the issuer server on /authorize
(src/unnamed/part_003, lines 45-50); the accessToken property is added by
mutation during /token. -/
structure IssuanceSession where
  authCode : String
  holderPublicKey : String
  verificationSessionId : String
  timestamp : String
  accessToken : Option String := none
deriving Repr, DecidableEq

/-- The in-memory session Map of the issuer server (src/unnamed/part_003,
line 22), modelled as a keyed reference table so that the aliasing of one
session object under both its authorization code and its access token is
faithful: keys maps a Map key to an object reference, heap holds the
session objects, and timers records the deletions scheduled with
setTimeout (fire instant in epoch milliseconds, key to delete). -/
structure SessionStore where
  keys : List (String × Nat)
  heap : List (Nat × IssuanceSession)
  nextRef : Nat
  timers : List (Int × String)
deriving Repr, DecidableEq

def emptySessionStore : SessionStore :=
  { keys := [], heap := [], nextRef := 0, timers := [] }

/-- sessions.get: the session object reachable from a Map key. -/
def storeGet (st : SessionStore) (key : String) : Option IssuanceSession :=
  (jsMapGet st.keys key).bind (fun ref => jsMapGet st.heap ref)

/-- Firing of the deletions scheduled with setTimeout whose instant has
been reached: each due timer removes its key from the Map (the callback is
sessions.delete(authCode)); the session object itself and any other keys
pointing at it are untouched. -/
def fireDueTimers (st : SessionStore) (now : Int) : SessionStore :=
  { st with
      keys := ((st.timers.filter (fun t => t.1 ≤ now)).map Prod.snd).foldl jsMapDelete st.keys
    , timers := st.timers.filter (fun t => ¬ (t.1 ≤ now)) }

/-- Response of POST /authorize as far as session state is concerned. -/
inductive AuthorizeResp where
  | invalidRequest
  | ok : String → AuthorizeResp
deriving Repr, DecidableEq

/-- Embedding of the POST /authorize handler (src/unnamed/part_003, lines
29-69): both fields must be truthy; a fresh authorization code keys a new
session record, and a deletion of that code is scheduled 10 minutes
(600000 ms) ahead.  freshCode stands for the crypto.randomUUID() value. -/
def handleAuthorize (st : SessionStore) (now : Int)
    (verificationSessionId holderPublicKey : Option String)
    (freshCode isoNow : String) : AuthorizeResp × SessionStore :=
  match verificationSessionId, holderPublicKey with
  | some vsid, some hpk =>
    if vsid = "" ∨ hpk = "" then (.invalidRequest, st)
    else
      (.ok freshCode,
       { keys := jsMapSet st.keys freshCode st.nextRef
       , heap := jsMapSet st.heap st.nextRef
           { authCode := freshCode, holderPublicKey := hpk
           , verificationSessionId := vsid, timestamp := isoNow }
       , nextRef := st.nextRef + 1
       , timers := st.timers ++ [(now + 600000, freshCode)] })
  | _, _ => (.invalidRequest, st)

/-- Response of POST /token as far as session state is concerned. -/
inductive TokenResp where
  | unsupportedGrantType
  | invalidGrant
  | ok : String → TokenResp
deriving Repr, DecidableEq

/-- Embedding of the POST /token handler (src/unnamed/part_003, lines
75-114): wrong grant type fails, an absent Map key fails invalid_grant;
otherwise the session object gains an accessToken property and is stored a
second time under the fresh access token; the code key is NOT removed and
no deletion is scheduled for the token key.  freshToken stands for the
crypto.randomUUID() value. -/
def handleToken (st : SessionStore) (grantType code : Option String)
    (freshToken : String) : TokenResp × SessionStore :=
  if grantType ≠ some "authorization_code" then (.unsupportedGrantType, st)
  else
    match code with
    | none => (.invalidGrant, st)
    | some c =>
      match jsMapGet st.keys c with
      | none => (.invalidGrant, st)
      | some ref =>
        match jsMapGet st.heap ref with
        | none => (.invalidGrant, st)
        | some s =>
          (.ok freshToken,
           { st with
               heap := jsMapSet st.heap ref { s with accessToken := some freshToken }
             , keys := jsMapSet st.keys freshToken ref })

/-- Response of POST /credential as far as session state is concerned;
issued carries the holderPublicKey and verificationSessionId of the
session the credential is issued for. -/
inductive CredentialResp where
  | invalidToken
  | unsupportedFormat
  | invalidProof
  | issued : String → String → CredentialResp
deriving Repr, DecidableEq

/-- Truthy-and-wrong format check of /credential: format present,
non-empty, and different from vc+sd-jwt. -/
def formatBad : Option String → Bool
  | some f => f != "" && f != "vc+sd-jwt"
  | none => false

/-- Truthy-and-wrong proof check of /credential: proof object present with
proof_type different from jwt. -/
def proofBad : Option (Option String) → Bool
  | some pt => pt != some "jwt"
  | none => false

/-- Bearer-prefix test of the Authorization header. -/
def startsWithBearer (h : String) : Bool := "Bearer ".data.isPrefixOf h.data

/-- The header text after the Bearer prefix (authHeader.substring(7)). -/
def bearerToken (h : String) : String := (h.data.drop 7).asString

/-- Embedding of the POST /credential handler (src/unnamed/part_003, lines
120-183): requires a Bearer token whose Map lookup succeeds, validates the
optional format and proof fields, and issues with the claims over21 and
notExpired for the looked-up session. -/
def handleCredential (st : SessionStore) (authHeader : Option String)
    (format : Option String) (proofType : Option (Option String)) : CredentialResp :=
  match authHeader with
  | none => .invalidToken
  | some h =>
    if !(startsWithBearer h) then .invalidToken
    else
      match storeGet st (bearerToken h) with
      | none => .invalidToken
      | some s =>
        if formatBad format then .unsupportedFormat
        else if proofBad proofType then .invalidProof
        else .issued s.holderPublicKey s.verificationSessionId

end IssuanceSessionModel

section StoreLemmas

theorem jsMapGet_foldl_jsMapDelete {α : Type} (ks : List String) (m : List (String × α))
    (k : String) :
    jsMapGet (ks.foldl jsMapDelete m) k = if k ∈ ks then none else jsMapGet m k := by
  induction ks generalizing m with
  | nil => simp
  | cons a ks ih =>
    rw [List.foldl_cons, ih]
    by_cases hks : k ∈ ks
    · simp [hks]
    · by_cases hka : k = a
      · subst hka
        simp [hks, jsMapGet_jsMapDelete_self]
      · simp [hks, hka, jsMapGet_jsMapDelete_ne _ _ _ hka]

end StoreLemmas

section SessionDemoTrace

/-- Store after one /authorize with session id s1, holder key pk and fresh
authorization code code1 at t = 0. -/
def demoStore1 : SessionStore :=
  (handleAuthorize emptySessionStore 0 (some "s1") (some "pk") "code1" "iso-t0").2

/-- Store after additionally exchanging code1 for access token tok1. -/
def demoStore2 : SessionStore :=
  (handleToken demoStore1 (some "authorization_code") (some "code1") "tok1").2

/-- Store after the scheduled 10-minute deletion has fired. -/
def demoStoreExpired : SessionStore := fireDueTimers demoStore2 600000

end SessionDemoTrace

section ClaimC4

/-- C4 counterexample: after code1 has been exchanged once (successfully
minting tok1), a second /token call presenting the very same code succeeds
again and mints another access token instead of failing invalid_grant: the
handler never deletes the code key after an exchange. -/
theorem authorization_code_reused_successfully :
    (handleToken demoStore1 (some "authorization_code") (some "code1") "tok1").1
      = TokenResp.ok "tok1" ∧
    (handleToken demoStore2 (some "authorization_code") (some "code1") "tok2").1
      = TokenResp.ok "tok2" ∧
    (handleToken demoStore2 (some "authorization_code") (some "code1") "tok2").1
      ≠ TokenResp.invalidGrant :=
  ⟨rfl, rfl, by decide⟩

/-- C4 amended: an authorization code is not single-use; after any
successful exchange the same code is still a key of the session map, so a
further /token call with that code succeeds and mints another access
token.  The code only stops working when its key is deleted by the
10-minute timer. -/
theorem authorization_code_not_single_use (st : SessionStore) (c ft1 ft2 : String)
    (h : (handleToken st (some "authorization_code") (some c) ft1).1 = TokenResp.ok ft1) :
    (handleToken (handleToken st (some "authorization_code") (some c) ft1).2
        (some "authorization_code") (some c) ft2).1 = TokenResp.ok ft2 := by
  rcases hko : jsMapGet st.keys c with _ | ref
  · simp [handleToken, hko] at h
  · rcases hho : jsMapGet st.heap ref with _ | s
    · simp [handleToken, hko, hho] at h
    · have hk2 : jsMapGet (jsMapSet st.keys ft1 ref) c = some ref := by
        by_cases hcf : c = ft1
        · subst hcf
          exact jsMapGet_jsMapSet_self _ _ _
        · rw [jsMapGet_jsMapSet_ne _ _ _ _ hcf]
          exact hko
      simp [handleToken, hko, hho, hk2, jsMapGet_jsMapSet_self]

/-- Witness for C4 at the demo trace: exchanging code1 a second time after
the successful first exchange mints tok9. -/
theorem authorization_code_not_single_use_witness :
    (handleToken demoStore2 (some "authorization_code") (some "code1") "tok9").1
      = TokenResp.ok "tok9" :=
  authorization_code_not_single_use demoStore1 "code1" "tok1" "tok9" rfl

end ClaimC4

section ClaimC10

/-- C10: the /token handler fails invalid_grant exactly when the supplied
code is absent from the session map (for the supported grant type); on
success the fresh access token becomes a second key for the same session
record; and consequently any still-stored access token presented as the
code parameter is accepted as a grant and mints a further access token. -/
theorem access_token_accepted_as_grant (st : SessionStore) (grantType code : Option String)
    (ft : String) :
    ((handleToken st grantType code ft).1 = TokenResp.invalidGrant ↔
      grantType = some "authorization_code" ∧ code.bind (storeGet st) = none) ∧
    (∀ cc ref s, code = some cc → jsMapGet st.keys cc = some ref →
      jsMapGet st.heap ref = some s → grantType = some "authorization_code" →
      (handleToken st grantType code ft).1 = TokenResp.ok ft ∧
      jsMapGet (handleToken st grantType code ft).2.keys ft = some ref ∧
      storeGet (handleToken st grantType code ft).2 ft
        = some { s with accessToken := some ft }) ∧
    (∀ tok ref s, jsMapGet st.keys tok = some ref → jsMapGet st.heap ref = some s →
      (handleToken st (some "authorization_code") (some tok) ft).1 = TokenResp.ok ft) := by
  refine ⟨?_, ?_, ?_⟩
  · by_cases hg : grantType = some "authorization_code"
    · subst hg
      rcases code with _ | cc
      · simp [handleToken, storeGet]
      · rcases hko : jsMapGet st.keys cc with _ | ref
        · simp [handleToken, storeGet, hko]
        · rcases hho : jsMapGet st.heap ref with _ | s
          · simp [handleToken, storeGet, hko, hho]
          · simp [handleToken, storeGet, hko, hho]
    · simp [handleToken, hg]
  · intro cc ref s hc hko hho hg
    subst hc
    subst hg
    refine ⟨?_, ?_, ?_⟩
    · simp [handleToken, hko, hho]
    · simp [handleToken, hko, hho, jsMapGet_jsMapSet_self]
    · simp [handleToken, storeGet, hko, hho, jsMapGet_jsMapSet_self]
  · intro tok ref s hko hho
    simp [handleToken, hko, hho]

/-- Witness for C10 at the demo trace: tok1, minted by the first exchange
and still stored, is accepted as the code of a further /token call. -/
theorem access_token_accepted_as_grant_witness :
    (handleToken demoStore2 (some "authorization_code") (some "tok1") "tok2").1
      = TokenResp.ok "tok2" :=
  (access_token_accepted_as_grant demoStore2 (some "authorization_code") (some "tok1")
      "tok2").2.2 "tok1" 0
    { authCode := "code1", holderPublicKey := "pk", verificationSessionId := "s1"
    , timestamp := "iso-t0", accessToken := some "tok1" } rfl rfl

end ClaimC10

section BearerLemmas

theorem startsWithBearer_append (t : String) : startsWithBearer ("Bearer " ++ t) = true := by
  unfold startsWithBearer
  rw [String.data_append, List.isPrefixOf_iff_prefix]
  exact List.prefix_append _ _

theorem bearerToken_append (t : String) : bearerToken ("Bearer " ++ t) = t := by
  unfold bearerToken
  rw [String.data_append]
  rfl

end BearerLemmas

section ClaimC6

/-- C6 counterexample: on the demo trace, after the scheduled 10-minute
deletion has fired, a /token call with the old code does fail
invalid_grant, but a /credential call with the access token minted before
the deadline still succeeds and issues a credential, although the claim
demands that every lookup of the session behave as not-found (the
setTimeout only deletes the authorization-code key; the token key is never
scheduled for removal). -/
theorem session_usable_after_expiry :
    handleCredential demoStoreExpired (some "Bearer tok1") none none
      = CredentialResp.issued "pk" "s1" ∧
    (handleToken demoStoreExpired (some "authorization_code") (some "code1") "tok2").1
      = TokenResp.invalidGrant :=
  ⟨rfl, rfl⟩

/-- C6 amended: the scheduled removal fired 10 minutes after /authorize
deletes only the authorization-code key: token calls presenting the code
then fail invalid_grant exactly as for an unknown code, but an access
token minted from the code before the deadline remains a live key forever,
so /credential calls with it still succeed after the deadline. -/
theorem expiry_removes_only_code_key (st : SessionStore) (now : Int)
    (vsid hpk freshCode freshToken ft2 isoNow : String)
    (hvsid : vsid ≠ "") (hhpk : hpk ≠ "")
    (hcf : freshCode ≠ freshToken)
    (htimers : ∀ t ∈ st.timers, t.2 ≠ freshToken) :
    (handleToken
        (fireDueTimers
          (handleToken (handleAuthorize st now (some vsid) (some hpk) freshCode isoNow).2
            (some "authorization_code") (some freshCode) freshToken).2
          (now + 600000))
        (some "authorization_code") (some freshCode) ft2).1 = TokenResp.invalidGrant ∧
    handleCredential
        (fireDueTimers
          (handleToken (handleAuthorize st now (some vsid) (some hpk) freshCode isoNow).2
            (some "authorization_code") (some freshCode) freshToken).2
          (now + 600000))
        (some ("Bearer " ++ freshToken)) none none
      = CredentialResp.issued hpk vsid := by
  have hcf' : freshToken ≠ freshCode := fun hh => hcf hh.symm
  have h1 : (handleAuthorize st now (some vsid) (some hpk) freshCode isoNow).2
      = ⟨jsMapSet st.keys freshCode st.nextRef,
         jsMapSet st.heap st.nextRef
           { authCode := freshCode, holderPublicKey := hpk
           , verificationSessionId := vsid, timestamp := isoNow },
         st.nextRef + 1, st.timers ++ [(now + 600000, freshCode)]⟩ := by
    simp [handleAuthorize, hvsid, hhpk]
  rw [h1]
  have h2 : handleToken
      (⟨jsMapSet st.keys freshCode st.nextRef,
        jsMapSet st.heap st.nextRef
          { authCode := freshCode, holderPublicKey := hpk
          , verificationSessionId := vsid, timestamp := isoNow },
        st.nextRef + 1, st.timers ++ [(now + 600000, freshCode)]⟩ : SessionStore)
      (some "authorization_code") (some freshCode) freshToken
      = (TokenResp.ok freshToken,
         ⟨jsMapSet (jsMapSet st.keys freshCode st.nextRef) freshToken st.nextRef,
          jsMapSet (jsMapSet st.heap st.nextRef
            { authCode := freshCode, holderPublicKey := hpk
            , verificationSessionId := vsid, timestamp := isoNow }) st.nextRef
            { authCode := freshCode, holderPublicKey := hpk
            , verificationSessionId := vsid, timestamp := isoNow
            , accessToken := some freshToken },
          st.nextRef + 1, st.timers ++ [(now + 600000, freshCode)]⟩) := by
    simp [handleToken, jsMapGet_jsMapSet_self]
  rw [h2]
  have h3 : fireDueTimers
      (⟨jsMapSet (jsMapSet st.keys freshCode st.nextRef) freshToken st.nextRef,
        jsMapSet (jsMapSet st.heap st.nextRef
          { authCode := freshCode, holderPublicKey := hpk
          , verificationSessionId := vsid, timestamp := isoNow }) st.nextRef
          { authCode := freshCode, holderPublicKey := hpk
          , verificationSessionId := vsid, timestamp := isoNow
          , accessToken := some freshToken },
        st.nextRef + 1, st.timers ++ [(now + 600000, freshCode)]⟩ : SessionStore)
      (now + 600000)
      = ⟨((st.timers.filter (fun t => t.1 ≤ now + 600000)).map Prod.snd
            ++ [freshCode]).foldl jsMapDelete
           (jsMapSet (jsMapSet st.keys freshCode st.nextRef) freshToken st.nextRef),
         jsMapSet (jsMapSet st.heap st.nextRef
           { authCode := freshCode, holderPublicKey := hpk
           , verificationSessionId := vsid, timestamp := isoNow }) st.nextRef
           { authCode := freshCode, holderPublicKey := hpk
           , verificationSessionId := vsid, timestamp := isoNow
           , accessToken := some freshToken },
         st.nextRef + 1, st.timers.filter (fun t => ¬ (t.1 ≤ now + 600000))⟩ := by
    simp [fireDueTimers, List.filter_append]
  rw [h3]
  have hkeyCode : jsMapGet
      (((st.timers.filter (fun t => t.1 ≤ now + 600000)).map Prod.snd
          ++ [freshCode]).foldl jsMapDelete
        (jsMapSet (jsMapSet st.keys freshCode st.nextRef) freshToken st.nextRef))
      freshCode = none := by
    rw [jsMapGet_foldl_jsMapDelete]
    simp
  have hnotin : freshToken ∉
      (st.timers.filter (fun t => t.1 ≤ now + 600000)).map Prod.snd ++ [freshCode] := by
    intro hmem
    rcases List.mem_append.mp hmem with hmem | hmem
    · rcases List.mem_map.mp hmem with ⟨t, ht, hts⟩
      exact htimers t (List.mem_of_mem_filter ht) hts
    · exact hcf' (List.mem_singleton.mp hmem)
  have hkeyTok : jsMapGet
      (((st.timers.filter (fun t => t.1 ≤ now + 600000)).map Prod.snd
          ++ [freshCode]).foldl jsMapDelete
        (jsMapSet (jsMapSet st.keys freshCode st.nextRef) freshToken st.nextRef))
      freshToken = some st.nextRef := by
    rw [jsMapGet_foldl_jsMapDelete, if_neg hnotin, jsMapGet_jsMapSet_self]
  rw [List.foldl_append] at hkeyCode hkeyTok
  simp only [List.foldl_cons, List.foldl_nil] at hkeyCode hkeyTok
  constructor
  · simp [handleToken, hkeyCode]
  · simp [handleCredential, startsWithBearer_append, bearerToken_append, storeGet,
      hkeyTok, jsMapGet_jsMapSet_self, formatBad, proofBad]

/-- Witness for C6 at the demo inputs: starting from the empty store, after
authorize, token and the fired deletion, the code fails invalid_grant while
the credential call with the minted token still issues. -/
theorem expiry_removes_only_code_key_witness :
    (handleToken
        (fireDueTimers
          (handleToken
            (handleAuthorize emptySessionStore 0 (some "s1") (some "pk") "code1" "iso-t0").2
            (some "authorization_code") (some "code1") "tok1").2
          600000)
        (some "authorization_code") (some "code1") "tok2").1 = TokenResp.invalidGrant ∧
    handleCredential
        (fireDueTimers
          (handleToken
            (handleAuthorize emptySessionStore 0 (some "s1") (some "pk") "code1" "iso-t0").2
            (some "authorization_code") (some "code1") "tok1").2
          600000)
        (some ("Bearer " ++ "tok1")) none none
      = CredentialResp.issued "pk" "s1" := by
  have h := expiry_removes_only_code_key emptySessionStore 0 "s1" "pk" "code1" "tok1"
    "tok2" "iso-t0" (by decide) (by decide) (by decide) (by intro t ht; cases ht)
  exact h

end ClaimC6

section SdJwtModel

/-- A selective-disclosure triple [salt, claim name, claim value]
(src/issuer/issueCredential.js, line 95). -/
structure Disclosure where
  salt : String
  claimName : String
  claimValue : JsVal
deriving Repr

/-- Payload of the signed SD-JWT envelope as built by issueCredential
(src/issuer/issueCredential.js, lines 30-56): sd is the _sd digest array,
cnfJwk the holder binding, sdAlg the _sd_alg marker and
derivedFromSessionId the verification-session reference.  The holder
public key is modelled by its kid string (the sub fallback hashing a
kid-less JWK is external crypto outside the claims at issue). -/
structure SdJwtPayload where
  iss : String
  sub : String
  iat : Int
  exp : Int
  vct : String
  sd : List String
  cnfJwk : String
  sdAlg : String
  derivedFromSessionId : String
deriving Repr

/-- External codec and crypto collaborators of the issuance module, kept
abstract: encodeDisclosure models base64url(JSON.stringify(triple)),
decodeDisclosure the inverse decode-and-parse (none when JSON.parse
throws), hashB64url the base64url-encoded sha-256 of a string, signJwt the
jose SignJWT signature under the issuer private key, and verifyJwt the
jose jwtVerify against the issuer public key (none on signature failure).
Their contracts appear as hypotheses of the theorems below. -/
structure SdPrimitives where
  encodeDisclosure : Disclosure → String
  decodeDisclosure : String → Option Disclosure
  hashB64url : String → String
  signJwt : SdJwtPayload → String
  verifyJwt : String → Option SdJwtPayload

/-- Embedding of createDisclosures (src/issuer/issueCredential.js, lines
88-112), the stream of fresh random salts supplied as a function of the
claim index: the encoded disclosures and their digests, in claim order. -/
def createDisclosures (P : SdPrimitives) (salts : Nat → String)
    (claims : List (String × JsVal)) : List String × List String :=
  let disclosures := claims.enum.map
    (fun p => P.encodeDisclosure ⟨salts p.1, p.2.1, p.2.2⟩)
  (disclosures, disclosures.map P.hashB64url)

/-- The envelope payload built by issueCredential for a digest list
(src/issuer/issueCredential.js, lines 30-56); DERIVED_VC_TTL defaults to
86400 seconds and is passed here as ttl. -/
def issuePayload (now ttl : Int) (holderKid verificationSessionId : String)
    (digests : List String) : SdJwtPayload :=
  { iss := "http://localhost:3001"
  , sub := holderKid
  , iat := now
  , exp := now + ttl
  , vct := "https://example.com/derived-mdl-vc"
  , sd := digests
  , cnfJwk := holderKid
  , sdAlg := "sha-256"
  , derivedFromSessionId := verificationSessionId }

/-- JS Array.prototype.join with the tilde separator, at character level. -/
def joinTilde (segs : List String) : String :=
  (List.intercalate ['~'] (segs.map String.data)).asString

/-- JS String.prototype.split on the tilde, at character level. -/
def splitTilde (s : String) : List String :=
  (s.data.splitOn '~').map List.asString

/-- Embedding of issueCredential (src/issuer/issueCredential.js, lines
20-81): the credential string is the signed envelope, a tilde, the
tilde-joined disclosures and a trailing tilde; returned together with the
encoded disclosures. -/
def issueCredential (P : SdPrimitives) (salts : Nat → String) (now ttl : Int)
    (holderKid verificationSessionId : String) (claims : List (String × JsVal)) :
    String × List String :=
  let (disclosures, digests) := createDisclosures P salts claims
  let payload := issuePayload now ttl holderKid verificationSessionId digests
  let jwt := P.signJwt payload
  (jwt ++ "~" ++ joinTilde disclosures ++ "~", disclosures)

/-- A presented credential string: envelope plus a chosen list of
disclosure segments, each segment followed by a tilde — the shape obtained
from an issued credential by deleting disclosure segments together with
their trailing separators. -/
def presentString (jwt : String) (segs : List String) : String :=
  joinTilde ([jwt] ++ segs ++ [""])

/-- Result of verifyCredential (src/issuer/issueCredential.js, lines
120-177); claims is present exactly on success. -/
structure CredVerifyResult where
  valid : Bool
  claims : Option (List (String × JsVal)) := none
  holder : Option String := none
  issuer : Option String := none
  issuedAt : Option Int := none
  expiresAt : Option Int := none
  error : Option String := none
deriving Repr

/-- Disclosure-decoding loop of verifyCredential (lines 145-159): each
segment is decoded (a parse failure throws, aborting verification), its
digest recomputed, and the claim assigned into the output object only when
the digest occurs in the envelope _sd array. -/
def decodeClaimsAux (P : SdPrimitives) (payload : SdJwtPayload)
    (acc : List (String × JsVal)) : List String → Option (List (String × JsVal))
  | [] => some acc
  | d :: rest =>
    match P.decodeDisclosure d with
    | none => none
    | some disc =>
      decodeClaimsAux P payload
        (if payload.sd.contains (P.hashB64url d)
         then jsMapSet acc disc.claimName disc.claimValue else acc) rest

/-- Body of verifyCredential on the tilde-split parts: the first segment
is the JWT, the final (empty) segment is discarded and the rest are the
disclosures; verify the signature; reject when the exp claim is truthy and
in the past; decode the disclosures keeping the digest-matched claims.
Any thrown error (signature failure, disclosure parse failure) is caught
into valid := false. -/
def verifyParts (P : SdPrimitives) (now : Int) (parts : List String) : CredVerifyResult :=
  match P.verifyJwt (parts.headD "") with
  | none => { valid := false, error := some "signature verification failed" }
  | some payload =>
    if payload.exp ≠ 0 ∧ payload.exp < now then
      { valid := false, error := some "Credential expired" }
    else
      match decodeClaimsAux P payload [] ((parts.drop 1).dropLast) with
      | none => { valid := false, error := some "disclosure decoding failed" }
      | some claims =>
        { valid := true, claims := some claims, holder := some payload.cnfJwk
        , issuer := some payload.iss, issuedAt := some payload.iat
        , expiresAt := some payload.exp }

/-- Embedding of verifyCredential (src/issuer/issueCredential.js, lines
120-177): split on tildes and process the parts. -/
def verifyCredential (P : SdPrimitives) (now : Int) (sdJwt : String) : CredVerifyResult :=
  verifyParts P now (splitTilde sdJwt)

end SdJwtModel

section SdJwtLemmas

theorem data_asString (l : List Char) : l.asString.data = l := rfl

theorem string_eq_of_data {s t : String} (h : s.data = t.data) : s = t := by
  cases s; cases t; exact congrArg String.mk h

theorem intercalate_cons_of_ne_nil (sep x : List Char) (xs : List (List Char)) (h : xs ≠ []) :
    List.intercalate sep (x :: xs) = x ++ sep ++ List.intercalate sep xs := by
  rcases xs with _ | ⟨y, ys⟩
  · exact absurd rfl h
  · simp [List.intercalate, List.intersperse]

theorem intercalate_concat_nil (sep : List Char) (xs : List (List Char)) (h : xs ≠ []) :
    List.intercalate sep (xs ++ [[]]) = List.intercalate sep xs ++ sep := by
  induction xs with
  | nil => exact absurd rfl h
  | cons x xs ih =>
    rcases xs with _ | ⟨y, ys⟩
    · simp [List.intercalate, List.intersperse]
    · rw [List.cons_append, intercalate_cons_of_ne_nil sep x ((y :: ys) ++ [[]]) (by simp),
        intercalate_cons_of_ne_nil sep x (y :: ys) (by simp), ih (by simp)]
      simp

theorem splitTilde_joinTilde (segs : List String) (h : ∀ s ∈ segs, '~' ∉ s.data)
    (hne : segs ≠ []) : splitTilde (joinTilde segs) = segs := by
  unfold splitTilde joinTilde
  rw [data_asString]
  have hx : ∀ l ∈ segs.map String.data, '~' ∉ l := by
    intro l hl
    rcases List.mem_map.mp hl with ⟨s, hs, rfl⟩
    exact h s hs
  have hls : segs.map String.data ≠ [] := by
    simpa using hne
  rw [List.splitOn_intercalate (segs.map String.data) '~' hx hls, List.map_map]
  have hid : (List.asString ∘ String.data) = id := by
    funext s
    rfl
  rw [hid, List.map_id]

theorem splitTilde_presentString (jwt : String) (segs : List String)
    (hjwt : '~' ∉ jwt.data) (hsegs : ∀ s ∈ segs, '~' ∉ s.data) :
    splitTilde (presentString jwt segs) = [jwt] ++ segs ++ [""] := by
  apply splitTilde_joinTilde
  · intro s hs
    rcases List.mem_append.mp hs with hs1 | hs1
    · rcases List.mem_append.mp hs1 with hs2 | hs2
      · rw [List.mem_singleton.mp hs2]
        exact hjwt
      · exact hsegs s hs2
    · rw [List.mem_singleton.mp hs1]
      simp
  · simp

theorem issued_eq_presentString (jwt : String) (ds : List String) (h : ds ≠ []) :
    jwt ++ "~" ++ joinTilde ds ++ "~" = presentString jwt ds := by
  apply string_eq_of_data
  simp only [presentString, joinTilde]
  rw [String.data_append, String.data_append, String.data_append, data_asString, data_asString]
  have h1 : ds.map String.data ≠ [] := by simpa using h
  have h2 : ([jwt] ++ ds ++ [""]).map String.data
      = jwt.data :: (ds.map String.data ++ [[]]) := by
    simp
  rw [h2, intercalate_cons_of_ne_nil _ _ _ (by simp), intercalate_concat_nil _ _ h1]
  simp

theorem verifyCredential_presentString (P : SdPrimitives) (now : Int) (jwt : String)
    (segs : List String) (hjwt : '~' ∉ jwt.data) (hsegs : ∀ s ∈ segs, '~' ∉ s.data) :
    verifyCredential P now (presentString jwt segs)
      = verifyParts P now ([jwt] ++ segs ++ [""]) := by
  unfold verifyCredential
  rw [splitTilde_presentString jwt segs hjwt hsegs]

theorem headD_parts (jwt : String) (segs : List String) :
    ([jwt] ++ segs ++ [""]).headD "" = jwt := rfl

theorem dropLast_parts (jwt : String) (segs : List String) :
    (([jwt] ++ segs ++ [""]).drop 1).dropLast = segs := by
  rw [show ([jwt] ++ segs ++ [""]) = jwt :: (segs ++ [""]) from rfl]
  rw [List.drop_succ_cons, List.drop_zero, List.dropLast_concat]

theorem jsMapGet_append {κ α : Type} [DecidableEq κ] (l1 l2 : List (κ × α)) (k : κ) :
    jsMapGet (l1 ++ l2) k
      = match jsMapGet l1 k with
        | some v => some v
        | none => jsMapGet l2 k := by
  induction l1 with
  | nil => simp
  | cons p l1 ih =>
    by_cases hp : p.1 = k <;> simp [hp, ih]

theorem jsMapSet_eq_append {κ α : Type} [DecidableEq κ] (k : κ) (v : α) :
    ∀ (l : List (κ × α)), jsMapGet l k = none → jsMapSet l k v = l ++ [(k, v)] := by
  intro l
  induction l with
  | nil => intro _; rfl
  | cons p l ih =>
    intro h
    rw [jsMapGet_cons] at h
    by_cases hp : p.1 = k
    · rw [if_pos hp] at h
      cases h
    · rw [if_neg hp] at h
      rw [jsMapSet_cons, if_neg hp, ih h, List.cons_append]

theorem foldl_jsMapSet_eq_append {α : Type} :
    ∀ (pairs : List (String × α)) (acc : List (String × α)),
      (∀ p ∈ pairs, jsMapGet acc p.1 = none) → (pairs.map Prod.fst).Nodup →
      pairs.foldl (fun a p => jsMapSet a p.1 p.2) acc = acc ++ pairs := by
  intro pairs
  induction pairs with
  | nil => intro acc _ _; simp
  | cons p rest ih =>
    intro acc hget hnodup
    rw [List.map_cons, List.nodup_cons] at hnodup
    rw [List.foldl_cons, jsMapSet_eq_append _ _ _ (hget p (List.mem_cons_self _ _)),
      ih (acc ++ [(p.1, p.2)]) ?_ hnodup.2]
    · simp
    · intro q hq
      rw [jsMapGet_append, hget q (List.mem_cons_of_mem _ hq)]
      have hpq : ¬ (p.1 = q.1) := by
        intro hh
        apply hnodup.1
        rw [hh]
        exact List.mem_map.mpr ⟨q, hq, rfl⟩
      simp [hpq]

theorem decodeClaimsAux_matched (P : SdPrimitives) (payload : SdJwtPayload)
    (salts : Nat → String) :
    ∀ (pairs : List (Nat × (String × JsVal))) (acc : List (String × JsVal)),
      (∀ p ∈ pairs, P.decodeDisclosure (P.encodeDisclosure ⟨salts p.1, p.2.1, p.2.2⟩)
        = some ⟨salts p.1, p.2.1, p.2.2⟩) →
      (∀ p ∈ pairs, payload.sd.contains
        (P.hashB64url (P.encodeDisclosure ⟨salts p.1, p.2.1, p.2.2⟩)) = true) →
      decodeClaimsAux P payload acc
          (pairs.map (fun p => P.encodeDisclosure ⟨salts p.1, p.2.1, p.2.2⟩))
        = some (pairs.foldl (fun a p => jsMapSet a p.2.1 p.2.2) acc) := by
  intro pairs
  induction pairs with
  | nil => intro acc _ _; rfl
  | cons p rest ih =>
    intro acc hdec hsd
    have hd := hdec p (List.mem_cons_self _ _)
    have hs := hsd p (List.mem_cons_self _ _)
    rw [List.map_cons, List.foldl_cons]
    simp only [decodeClaimsAux, hd, hs, if_true]
    exact ih _ (fun q hq => hdec q (List.mem_cons_of_mem _ hq))
      (fun q hq => hsd q (List.mem_cons_of_mem _ hq))

theorem decodeClaimsAux_total (P : SdPrimitives) (payload : SdJwtPayload) :
    ∀ (segs : List String) (acc : List (String × JsVal)),
      (∀ s ∈ segs, ∃ d, P.decodeDisclosure s = some d) →
      ∃ l, decodeClaimsAux P payload acc segs = some l := by
  intro segs
  induction segs with
  | nil => intro acc _; exact ⟨acc, rfl⟩
  | cons s rest ih =>
    intro acc hdec
    rcases hdec s (List.mem_cons_self _ _) with ⟨d, hd⟩
    simp only [decodeClaimsAux, hd]
    exact ih _ (fun q hq => hdec q (List.mem_cons_of_mem _ hq))

theorem decodeClaimsAux_none_matched (P : SdPrimitives) (payload : SdJwtPayload) :
    ∀ (segs : List String) (acc : List (String × JsVal)),
      (∀ s ∈ segs, ∃ d, P.decodeDisclosure s = some d) →
      (∀ s ∈ segs, payload.sd.contains (P.hashB64url s) = false) →
      decodeClaimsAux P payload acc segs = some acc := by
  intro segs
  induction segs with
  | nil => intro acc _ _; rfl
  | cons s rest ih =>
    intro acc hdec hsd
    rcases hdec s (List.mem_cons_self _ _) with ⟨d, hd⟩
    have hs := hsd s (List.mem_cons_self _ _)
    simp only [decodeClaimsAux, hd, hs, if_false, Bool.false_eq_true]
    exact ih _ (fun q hq => hdec q (List.mem_cons_of_mem _ hq))
      (fun q hq => hsd q (List.mem_cons_of_mem _ hq))

end SdJwtLemmas

section ClaimC2

/-- C2 amended: for any nonempty claim object, issuing a derived credential
and verifying the full credential string recovers exactly the claims; and
for any subset of the disclosure segments retained in the presented
string, verification still succeeds and recovers exactly the corresponding
claim subset, the omitted disclosures being silently excluded.  The
hypotheses state the contracts of the external collaborators at the values
used: disclosure decoding inverts encoding, jwtVerify under the issuer
public key inverts SignJWT under its private key, the base64url segments
contain no tilde, and verification happens before the exp instant. -/
theorem sd_jwt_disclosure_roundtrip (P : SdPrimitives) (salts : Nat → String)
    (issueNow verifyNow ttl : Int) (holderKid vsid : String)
    (claims : List (String × JsVal))
    (hne : claims ≠ [])
    (hnodup : (claims.map Prod.fst).Nodup)
    (hdec : ∀ p ∈ claims.enum,
      P.decodeDisclosure (P.encodeDisclosure ⟨salts p.1, p.2.1, p.2.2⟩)
        = some ⟨salts p.1, p.2.1, p.2.2⟩)
    (henc : ∀ p ∈ claims.enum, '~' ∉ (P.encodeDisclosure ⟨salts p.1, p.2.1, p.2.2⟩).data)
    (hjwt : '~' ∉ (P.signJwt (issuePayload issueNow ttl holderKid vsid
      (createDisclosures P salts claims).2)).data)
    (hsig : P.verifyJwt (P.signJwt (issuePayload issueNow ttl holderKid vsid
        (createDisclosures P salts claims).2))
      = some (issuePayload issueNow ttl holderKid vsid (createDisclosures P salts claims).2))
    (hexp : ¬(issueNow + ttl ≠ 0 ∧ issueNow + ttl < verifyNow)) :
    verifyCredential P verifyNow
        (issueCredential P salts issueNow ttl holderKid vsid claims).1
      = { valid := true, claims := some claims, holder := some holderKid
        , issuer := some "http://localhost:3001", issuedAt := some issueNow
        , expiresAt := some (issueNow + ttl) } ∧
    (∀ keep : List (Nat × (String × JsVal)), List.Sublist keep claims.enum →
      verifyCredential P verifyNow
          (presentString (P.signJwt (issuePayload issueNow ttl holderKid vsid
              (createDisclosures P salts claims).2))
            (keep.map (fun p => P.encodeDisclosure ⟨salts p.1, p.2.1, p.2.2⟩)))
        = { valid := true, claims := some (keep.map Prod.snd), holder := some holderKid
          , issuer := some "http://localhost:3001", issuedAt := some issueNow
          , expiresAt := some (issueNow + ttl) }) := by
  have hcd1 : (createDisclosures P salts claims).1
      = claims.enum.map (fun p => P.encodeDisclosure ⟨salts p.1, p.2.1, p.2.2⟩) := rfl
  have hcd2 : (createDisclosures P salts claims).2
      = (claims.enum.map (fun p => P.encodeDisclosure ⟨salts p.1, p.2.1, p.2.2⟩)).map
          P.hashB64url := rfl
  have hpart2 : ∀ keep : List (Nat × (String × JsVal)), List.Sublist keep claims.enum →
      verifyCredential P verifyNow
          (presentString (P.signJwt (issuePayload issueNow ttl holderKid vsid
              (createDisclosures P salts claims).2))
            (keep.map (fun p => P.encodeDisclosure ⟨salts p.1, p.2.1, p.2.2⟩)))
        = { valid := true, claims := some (keep.map Prod.snd), holder := some holderKid
          , issuer := some "http://localhost:3001", issuedAt := some issueNow
          , expiresAt := some (issueNow + ttl) } := by
    intro keep hkeep
    have hsub : ∀ p ∈ keep, p ∈ claims.enum := fun p hp => hkeep.subset hp
    have hsegs : ∀ s ∈ keep.map (fun p => P.encodeDisclosure ⟨salts p.1, p.2.1, p.2.2⟩),
        '~' ∉ s.data := by
      intro s hs
      rcases List.mem_map.mp hs with ⟨p, hp, rfl⟩
      exact henc p (hsub p hp)
    rw [verifyCredential_presentString P verifyNow _ _ hjwt hsegs]
    have hexp' : ¬((issuePayload issueNow ttl holderKid vsid
        (createDisclosures P salts claims).2).exp ≠ 0 ∧
        (issuePayload issueNow ttl holderKid vsid
          (createDisclosures P salts claims).2).exp < verifyNow) := by
      simpa [issuePayload] using hexp
    have hdecode := decodeClaimsAux_matched P
      (issuePayload issueNow ttl holderKid vsid (createDisclosures P salts claims).2)
      salts keep []
      (fun p hp => hdec p (hsub p hp))
      (by
        intro p hp
        apply List.elem_eq_true_of_mem
        have hmem : P.hashB64url (P.encodeDisclosure ⟨salts p.1, p.2.1, p.2.2⟩)
            ∈ (claims.enum.map (fun q => P.encodeDisclosure ⟨salts q.1, q.2.1, q.2.2⟩)).map
                P.hashB64url :=
          List.mem_map.mpr ⟨P.encodeDisclosure ⟨salts p.1, p.2.1, p.2.2⟩,
            List.mem_map.mpr ⟨p, hsub p hp, rfl⟩, rfl⟩
        simpa [issuePayload, hcd2] using hmem)
    have hfold : keep.foldl (fun a p => jsMapSet a p.2.1 p.2.2) ([] : List (String × JsVal))
        = keep.map Prod.snd := by
      have hmapfold := List.foldl_map (Prod.snd)
        (fun (a : List (String × JsVal)) (q : String × JsVal) => jsMapSet a q.1 q.2)
        keep ([] : List (String × JsVal))
      rw [← hmapfold]
      rw [foldl_jsMapSet_eq_append (keep.map Prod.snd) [] (fun p _ => rfl) ?_]
      · simp
      · have h1 : (keep.map Prod.snd).map Prod.fst
            = keep.map (fun p => p.2.1) := by
          rw [List.map_map]
          rfl
        rw [h1]
        have h2 : (claims.enum.map (fun p => p.2.1)).Nodup := by
          have h3 : claims.enum.map (fun p => p.2.1)
              = (claims.enum.map Prod.snd).map Prod.fst := by
            rw [List.map_map]
            rfl
          rw [h3, List.enum_map_snd]
          exact hnodup
        exact h2.sublist (hkeep.map _)
    simp only [verifyParts, headD_parts, dropLast_parts, hsig, if_neg hexp', hdecode, hfold]
    simp [issuePayload]
  refine ⟨?_, hpart2⟩
  have hds_ne : claims.enum.map (fun p => P.encodeDisclosure ⟨salts p.1, p.2.1, p.2.2⟩)
      ≠ [] := by
    intro hh
    apply hne
    have := List.map_eq_nil_iff.mp hh
    simpa using this
  have hstr : (issueCredential P salts issueNow ttl holderKid vsid claims).1
      = presentString (P.signJwt (issuePayload issueNow ttl holderKid vsid
            (createDisclosures P salts claims).2))
          (claims.enum.map (fun p => P.encodeDisclosure ⟨salts p.1, p.2.1, p.2.2⟩)) := by
    have h4 : (issueCredential P salts issueNow ttl holderKid vsid claims).1
        = P.signJwt (issuePayload issueNow ttl holderKid vsid
            (createDisclosures P salts claims).2) ++ "~"
          ++ joinTilde (claims.enum.map
              (fun p => P.encodeDisclosure ⟨salts p.1, p.2.1, p.2.2⟩)) ++ "~" := rfl
    rw [h4]
    exact issued_eq_presentString _ _ hds_ne
  rw [hstr, hpart2 claims.enum (List.Sublist.refl _), List.enum_map_snd]

end ClaimC2

section ToyPrimitives

/-- Concrete instantiation of the external codec interface on a small
dictionary, used to evaluate the issuance pipeline at the witness and
counterexample inputs.  The empty string decodes to none, as JSON.parse of
an empty segment throws in the source. -/
def toyEncodeDisclosure : Disclosure → String
  | ⟨"s0", "over21", .jbool true⟩ => "d0"
  | ⟨"s1", "notExpired", .jbool true⟩ => "d1"
  | ⟨"sX", "extra", .jbool false⟩ => "dX"
  | _ => "dOther"

def toyDecodeDisclosure : String → Option Disclosure
  | "d0" => some ⟨"s0", "over21", .jbool true⟩
  | "d1" => some ⟨"s1", "notExpired", .jbool true⟩
  | "dX" => some ⟨"sX", "extra", .jbool false⟩
  | _ => none

def toyHash (s : String) : String := "H" ++ s

def toySalts : Nat → String := fun i => "s" ++ toString i

def toyClaims : List (String × JsVal) :=
  [("over21", JsVal.jbool true), ("notExpired", JsVal.jbool true)]

/-- The envelope payload of the toy issuance over toyClaims. -/
def toyPayload : SdJwtPayload := issuePayload 1000 86400 "holder-kid" "vs1" ["Hd0", "Hd1"]

/-- The envelope payload of the toy issuance over the empty claim set. -/
def toyPayloadEmpty : SdJwtPayload := issuePayload 1000 86400 "holder-kid" "vs1" []

def toySignJwt : SdJwtPayload → String := fun p => if p.sd = [] then "jwtE" else "jwt0"

def toyVerifyJwt : String → Option SdJwtPayload
  | "jwt0" => some toyPayload
  | "jwtE" => some toyPayloadEmpty
  | _ => none

def toyPrimitives : SdPrimitives :=
  { encodeDisclosure := toyEncodeDisclosure
  , decodeDisclosure := toyDecodeDisclosure
  , hashB64url := toyHash
  , signJwt := toySignJwt
  , verifyJwt := toyVerifyJwt }

end ToyPrimitives

section ClaimC2Witness

/-- Witness for C2 at the concrete toy instantiation over the claims the
issuer actually hardcodes (over21 and notExpired): the full round trip
recovers both claims, and a presentation retaining only the notExpired
disclosure recovers exactly that claim. -/
theorem sd_jwt_disclosure_roundtrip_witness :
    verifyCredential toyPrimitives 2000
        (issueCredential toyPrimitives toySalts 1000 86400 "holder-kid" "vs1" toyClaims).1
      = { valid := true, claims := some toyClaims, holder := some "holder-kid"
        , issuer := some "http://localhost:3001", issuedAt := some 1000
        , expiresAt := some (1000 + 86400) } ∧
    verifyCredential toyPrimitives 2000
        (presentString (toyPrimitives.signJwt (issuePayload 1000 86400 "holder-kid" "vs1"
            (createDisclosures toyPrimitives toySalts toyClaims).2))
          ([((1 : Nat), ("notExpired", JsVal.jbool true))].map
            (fun p => toyPrimitives.encodeDisclosure ⟨toySalts p.1, p.2.1, p.2.2⟩)))
      = { valid := true
        , claims := some ([((1 : Nat), ("notExpired", JsVal.jbool true))].map Prod.snd)
        , holder := some "holder-kid", issuer := some "http://localhost:3001"
        , issuedAt := some 1000, expiresAt := some (1000 + 86400) } := by
  have henum : toyClaims.enum
      = [((0 : Nat), ("over21", JsVal.jbool true)),
         ((1 : Nat), ("notExpired", JsVal.jbool true))] := rfl
  have h := sd_jwt_disclosure_roundtrip toyPrimitives toySalts 1000 2000 86400
    "holder-kid" "vs1" toyClaims
    (by simp [toyClaims])
    (by simp [toyClaims])
    (by
      intro p hp
      rw [henum] at hp
      rcases List.mem_cons.mp hp with rfl | hp
      · rfl
      rcases List.mem_cons.mp hp with rfl | hp
      · rfl
      cases hp)
    (by
      intro p hp
      rw [henum] at hp
      rcases List.mem_cons.mp hp with rfl | hp
      · decide
      rcases List.mem_cons.mp hp with rfl | hp
      · decide
      cases hp)
    (by decide)
    rfl
    (by decide)
  refine ⟨h.1, ?_⟩
  exact h.2 [((1 : Nat), ("notExpired", JsVal.jbool true))]
    (List.Sublist.cons _ (List.Sublist.refl _))

/-- C2 counterexample: for the empty claim set the issued credential string
carries an empty disclosure segment between the two trailing tildes, whose
parse fails during verification, so verification returns valid := false
instead of succeeding with an empty claim set — the round-trip claim fails
at C = empty. -/
theorem sd_jwt_empty_claims_fails :
    (verifyCredential toyPrimitives 2000
        (issueCredential toyPrimitives toySalts 1000 86400 "holder-kid" "vs1" []).1).valid
      = false ∧
    (verifyCredential toyPrimitives 2000
        (issueCredential toyPrimitives toySalts 1000 86400 "holder-kid" "vs1" []).1).claims
      = none :=
  ⟨rfl, rfl⟩

end ClaimC2Witness

section ClaimC9

/-- C9 counterexample: a credential whose envelope digest list contains
Hd0 matching no presented disclosure while the presented dX disclosure
matches no envelope digest verifies successfully, the unmatched digest
being ignored and the unmatched disclosure silently dropped from the
claims, instead of the exact-correspondence failure the claim demands. -/
theorem unmatched_digest_and_disclosure_accepted :
    verifyCredential toyPrimitives 2000 (presentString "jwt0" ["d1", "dX"])
      = { valid := true, claims := some [("notExpired", JsVal.jbool true)]
        , holder := some "holder-kid", issuer := some "http://localhost:3001"
        , issuedAt := some 1000, expiresAt := some (1000 + 86400) } := rfl

/-- C9 amended: verifyCredential requires no correspondence between the
envelope digests and the presented disclosures: provided the signature
verifies, the credential is unexpired and every presented segment decodes,
verification succeeds, the claims are exactly the digest-matched fold of
the segments, and when no segment digest occurs in the envelope _sd array
the claim set is empty — unmatched digests and disclosures are never a
validation failure. -/
theorem verifyCredential_silent_exclusion (P : SdPrimitives) (now : Int) (jwt : String)
    (segs : List String) (payload : SdJwtPayload)
    (hjwt : '~' ∉ jwt.data) (hsegs : ∀ s ∈ segs, '~' ∉ s.data)
    (hsig : P.verifyJwt jwt = some payload)
    (hexp : ¬(payload.exp ≠ 0 ∧ payload.exp < now))
    (hdec : ∀ s ∈ segs, ∃ d, P.decodeDisclosure s = some d) :
    (verifyCredential P now (presentString jwt segs)).valid = true ∧
    (verifyCredential P now (presentString jwt segs)).claims
      = decodeClaimsAux P payload [] segs ∧
    ((∀ s ∈ segs, payload.sd.contains (P.hashB64url s) = false) →
      (verifyCredential P now (presentString jwt segs)).claims = some []) := by
  rcases decodeClaimsAux_total P payload segs [] hdec with ⟨l, hl⟩
  rw [verifyCredential_presentString P now jwt segs hjwt hsegs]
  refine ⟨?_, ?_, ?_⟩
  · simp [verifyParts, headD_parts, dropLast_parts, hsig, if_neg hexp, hl]
  · simp [verifyParts, headD_parts, dropLast_parts, hsig, if_neg hexp, hl]
  · intro hnone
    have hacc := decodeClaimsAux_none_matched P payload segs [] hdec hnone
    simp [verifyParts, headD_parts, dropLast_parts, hsig, if_neg hexp, hacc]

/-- Witness for C9 at a concrete input: a presentation whose only
disclosure matches no envelope digest (and whose envelope digests match no
disclosure) still verifies with an empty claim set. -/
theorem verifyCredential_silent_exclusion_witness :
    (verifyCredential toyPrimitives 2000 (presentString "jwt0" ["dX"])).valid = true ∧
    (verifyCredential toyPrimitives 2000 (presentString "jwt0" ["dX"])).claims = some [] := by
  have h := verifyCredential_silent_exclusion toyPrimitives 2000 "jwt0" ["dX"] toyPayload
    (by decide)
    (by
      intro s hs
      rw [List.mem_singleton.mp hs]
      decide)
    rfl
    (by decide)
    (by
      intro s hs
      rw [List.mem_singleton.mp hs]
      exact ⟨⟨"sX", "extra", JsVal.jbool false⟩, rfl⟩)
  refine ⟨h.1, h.2.2 ?_⟩
  intro s hs
  rw [List.mem_singleton.mp hs]
  rfl

end ClaimC9

end ZkMdlKit
